import Mathlib

/-!
Verification of the EduGenius hybrid document-ingestion pipeline.

The definitions below are shallow embeddings of the Python sources under
`src/api/app`:

* `GateState`, `GateStep`, `OCRSemaphore.*` embed `core/ocr_semaphore.py`
  (class `OCRSemaphore` and the module-level instance `ocr_semaphore`);
* `validate_pdf_before_upload` embeds `utils/pdf_validator.py`;
* `choosePath`, `ocrPathFinal` embed
  `services/hybrid_document_processor.py` (`HybridDocumentProcessor`);
* `process_pdf_page`, `process_pdf` embed `core/ocr_engine.py` (`OCREngine`);
* `extract_bookmarks`, `parse_textbook`, `select_best_pages` embed
  `core/textbook_parser.py` (`TextbookParser`);
* `accumulate_chapters` embeds
  `services/chapter_divider_robust.py`
  (`RobustChapterDivider._extract_chapters_with_regex`), and
  `llm_extract_post` embeds the tail of
  `services/improved_chapter_extractor.py`
  (`ImprovedChapterExtractor._llm_extract`).

External capabilities (PyMuPDF page text, the recognition model's per-line
output, the generative model's parsed reply, the heuristic-scan result fed
into `parse_textbook`) are modelled as inputs, exactly at the boundary where
the Python code receives them.  Floating-point ratios and confidences are
modelled as rationals; the statements proved here stay away from values where
binary rounding could flip a comparison.
-/

namespace EduGenius

/-! ## RecognitionGate: `core/ocr_semaphore.py`

`OCRSemaphore.__init__(max_concurrent=2)` wraps `asyncio.Semaphore(max_concurrent)`
plus a Python `set` of active task ids.  We model the semaphore counter as
`available` and the `_current_tasks` set as a `Finset String`. -/

structure GateState where
  available : Nat
  active : Finset String
  deriving DecidableEq

/-- The state `OCRSemaphore.__init__` builds: full counter, empty task set
(`ocr_semaphore.py` lines 14-17). -/
def OCRSemaphore.init (max_concurrent : Nat) : GateState :=
  ⟨max_concurrent, ∅⟩

/-- Labels for the two public operations of `OCRSemaphore`. -/
inductive GateLabel
  | acq (task_id : String)
  | rel (task_id : String)
  deriving DecidableEq

/-- One completed `acquire` / `release` call (`ocr_semaphore.py` lines 19-35).
`acquire` completes only when `asyncio.Semaphore.acquire()` returned, which
requires a positive counter; it then adds the task id to `_current_tasks`.
`release` frees a slot only when the id is active (lines 32-34); releasing a
non-active id is a no-op (no `else` branch in the source). -/
inductive GateStep : GateState → GateLabel → GateState → Prop
  | acquire (s : GateState) (id : String) (h : 0 < s.available) :
      GateStep s (.acq id) ⟨s.available - 1, insert id s.active⟩
  | releaseActive (s : GateState) (id : String) (h : id ∈ s.active) :
      GateStep s (.rel id) ⟨s.available + 1, s.active.erase id⟩
  | releaseNoop (s : GateState) (id : String) (h : id ∉ s.active) :
      GateStep s (.rel id) s

/-- States reachable from a freshly constructed `OCRSemaphore(max_concurrent = n)`
by any interleaving of completed acquire/release calls. -/
inductive GateReachable (n : Nat) : GateState → Prop
  | init : GateReachable n (OCRSemaphore.init n)
  | step {s t : GateState} {l : GateLabel} :
      GateReachable n s → GateStep s l t → GateReachable n t

/-- Auxiliary invariant: active tasks plus free slots never exceed the capacity. -/
theorem gate_measure {n : Nat} {s : GateState} (h : GateReachable n s) :
    s.active.card + s.available ≤ n := by
  induction h with
  | init => simp [OCRSemaphore.init]
  | step hr hstep ih =>
    clear hr
    cases hstep with
    | acquire id hav =>
      rename_i s
      have hc := Finset.card_insert_le id s.active
      simp only at *
      omega
    | releaseActive id hmem =>
      rename_i s
      have hc := Finset.card_erase_of_mem hmem
      have hp : 0 < s.active.card := Finset.card_pos.mpr ⟨id, hmem⟩
      simp only at *
      omega
    | releaseNoop => exact ih

/-- C2: with capacity `n`, in every state reachable by any interleaving of
acquire and release, the number of concurrently active task ids never exceeds
`n`, and when `n` tasks are active no further acquire can complete (the
`(n+1)`th concurrent attempt blocks on the semaphore instead of becoming
active). -/
theorem recognition_gate_bounded {n : Nat} {s : GateState}
    (h : GateReachable n s) :
    s.active.card ≤ n ∧
      (s.active.card = n → ∀ id t, ¬ GateStep s (GateLabel.acq id) t) := by
  have hm := gate_measure h
  refine ⟨by omega, ?_⟩
  intro hfull id t hstep
  cases hstep with
  | acquire _ hav => omega

/-- Witness for C2 at a concrete reachable state: capacity 2, one task active
after a single completed acquire. -/
theorem recognition_gate_bounded_witness :
    GateReachable 2 ⟨1, insert "a" ∅⟩ ∧
      (GateState.mk 1 (insert "a" ∅)).active.card ≤ 2 := by
  have hr : GateReachable 2 ⟨1, insert "a" ∅⟩ :=
    GateReachable.step GateReachable.init
      (GateStep.acquire (OCRSemaphore.init 2) "a" (by decide))
  exact ⟨hr, (recognition_gate_bounded hr).1⟩

/-- Completion of `OCRSemaphore.acquire` (`ocr_semaphore.py` lines 19-28):
once `await self._semaphore.acquire()` has returned, the method adds the task
id to `_current_tasks` and returns `True`.  The `except Exception` branch that
returns `False` is unreachable for a call that completes: `Semaphore.acquire`
raises no `Exception` on completion, `set.add` on a string raises nothing, and
cancellation aborts the coroutine rather than completing it. -/
def OCRSemaphore.acquireComplete (s : GateState) (task_id : String) :
    GateState × Bool :=
  (⟨s.available - 1, insert task_id s.active⟩, true)

/-- The is_scan branch of `upload_document`
(`api/endpoints/documents.py` lines 266-331): build the task id
`"doc_<id>"`, await `ocr_semaphore.acquire`; if it returned `False`, set the
document to `"queued"` and return; otherwise start the pipeline and return
processing_status `"pending"` (line 330, is_scan case). -/
def uploadScanBranchStatus (s : GateState) (docId : Nat) : GateState × String :=
  let acq := OCRSemaphore.acquireComplete s ("doc_" ++ toString docId)
  if acq.2 = false then (acq.1, "queued") else (acq.1, "pending")

/-- C10: every completed `OCRSemaphore.acquire` call returns `True`, so the
`if not acquired` branch of `upload_document` that would mark the document
`"queued"` is unreachable: the scan branch always reports `"pending"`. -/
theorem acquire_always_returns_true (s : GateState) (id : String) (docId : Nat) :
    (OCRSemaphore.acquireComplete s id).2 = true ∧
      (uploadScanBranchStatus s docId).2 = "pending" ∧
      (uploadScanBranchStatus s docId).2 ≠ "queued" := by
  refine ⟨rfl, rfl, ?_⟩
  simp [uploadScanBranchStatus, OCRSemaphore.acquireComplete]

/-- Effect of one gate operation on the state, as executed by the source:
an acquire is `OCRSemaphore.acquireComplete`, a release is
`OCRSemaphore.release` (`ocr_semaphore.py` lines 30-35). -/
def applyGateOp (s : GateState) : GateLabel → GateState
  | .acq id => (OCRSemaphore.acquireComplete s id).1
  | .rel id =>
      if id ∈ s.active then ⟨s.available + 1, s.active.erase id⟩ else s

/-- Run a sequence of gate operations in order. -/
def runGateOps (s : GateState) (ops : List GateLabel) : GateState :=
  ops.foldl applyGateOp s

/-- The complete sequence of gate operations one scanned-PDF upload performs,
from acquisition to pipeline termination, for both exit paths of the caller
(`succeeded = true`: `process_document_async` finished and logged success,
documents.py lines 296-309; `succeeded = false`: it raised and the `except`
branch marked the document failed, lines 311-319).  The endpoint acquires the
slot at line 271; no call to `OCRSemaphore.release` exists anywhere in the
repository, so neither path appends a release operation. -/
def scanPipelineGateOps (docId : Nat) : Bool → List GateLabel
  | true => [GateLabel.acq ("doc_" ++ toString docId)]
  | false => [GateLabel.acq ("doc_" ++ toString docId)]

/-- C1 (violated by the code): after a scanned document's pipeline terminates
on either exit path, its task id is still in the gate's active-task set and
the slot is never freed.  In particular, starting from the fresh
`ocr_semaphore` of capacity 2, the upload of document 1 leaves `"doc_1"`
active with only one slot left. -/
theorem ocr_slot_never_released (b : Bool) (s : GateState) (docId : Nat) :
    ("doc_" ++ toString docId) ∈ (runGateOps s (scanPipelineGateOps docId b)).active ∧
      "doc_1" ∈ (runGateOps (OCRSemaphore.init 2) (scanPipelineGateOps 1 b)).active ∧
      (runGateOps (OCRSemaphore.init 2) (scanPipelineGateOps 1 b)).available = 1 := by
  cases b <;>
    refine ⟨by simp [runGateOps, scanPipelineGateOps, applyGateOp,
      OCRSemaphore.acquireComplete], by decide, by decide⟩

/-! ## TextLayerValidator: `utils/pdf_validator.py`

A readable PDF is modelled as the list of its pages' native text-layer
strings, exactly what `page.get_text()` hands the loop. -/

structure PdfValidation where
  has_text : Bool
  total_pages : Nat
  text_pages : Nat
  image_pages : Nat
  text_ratio : ℚ
  is_scan : Bool
  deriving DecidableEq

/-- Python `str.strip()` with no arguments: remove leading and trailing
whitespace characters. -/
def pyStrip (s : String) : String :=
  String.mk (((s.data.dropWhile Char.isWhitespace).reverse.dropWhile
    Char.isWhitespace).reverse)

/-- One iteration of the page loop (`pdf_validator.py` lines 40-50): a page
whose stripped text is non-empty (`if text.strip():`) increments `text_pages`,
any other page increments `image_pages`.
Accumulator: `(text_pages, image_pages)`. -/
def countPage (acc : Nat × Nat) (pageText : String) : Nat × Nat :=
  if pyStrip pageText ≠ "" then (acc.1 + 1, acc.2) else (acc.1, acc.2 + 1)

/-- `validate_pdf_before_upload` (`pdf_validator.py` lines 9-88) on a readable
PDF: count text/image pages, `text_ratio = text_pages/total_pages` when
`total_pages > 0` (line 53-54, else it keeps its initial 0.0),
`has_text = text_pages > 0` (line 57), `is_scan = text_ratio < 0.2` (line 61).
The `recommendation` and `sample_text` strings are presentation only and are
not modelled. -/
def validate_pdf_before_upload (pages : List String) : PdfValidation :=
  let total := pages.length
  let counts := pages.foldl countPage (0, 0)
  let ratio : ℚ := if 0 < total then (counts.1 : ℚ) / (total : ℚ) else 0
  { has_text := decide (0 < counts.1)
    total_pages := total
    text_pages := counts.1
    image_pages := counts.2
    text_ratio := ratio
    is_scan := decide (ratio < 1/5) }

/-- Closed form of the counting loop. -/
theorem countPage_foldl (pages : List String) (acc : Nat × Nat) :
    pages.foldl countPage acc =
      (acc.1 + pages.countP (fun p => decide (pyStrip p ≠ "")),
       acc.2 + pages.countP (fun p => decide (pyStrip p = ""))) := by
  induction pages generalizing acc with
  | nil => simp
  | cons p ps ih =>
    simp only [List.foldl_cons, List.countP_cons, countPage]
    by_cases hp : pyStrip p = "" <;> simp [hp, ih] <;> omega

/-- C5: for every readable PDF the validator returns
`text_ratio = text_pages / total_pages` (0 when there are no pages),
`is_scan` holds exactly when `text_ratio < 0.2`, and a page is counted as a
text page exactly when its native text layer yields some non-whitespace text. -/
theorem validator_ratio_and_scan_flag (pages : List String) :
    (validate_pdf_before_upload pages).text_pages
        = (pages.filter (fun p => decide (pyStrip p ≠ ""))).length ∧
      (validate_pdf_before_upload pages).text_ratio
        = (if (validate_pdf_before_upload pages).total_pages = 0 then 0
           else ((validate_pdf_before_upload pages).text_pages : ℚ)
                  / (validate_pdf_before_upload pages).total_pages) ∧
      ((validate_pdf_before_upload pages).is_scan = true ↔
        (validate_pdf_before_upload pages).text_ratio < 1/5) := by
  refine ⟨?_, ?_, ?_⟩
  · simp [validate_pdf_before_upload, countPage_foldl, List.countP_eq_length_filter]
  · simp only [validate_pdf_before_upload]
    rcases Nat.eq_zero_or_pos pages.length with h0 | hpos
    · simp [h0]
    · simp [hpos, Nat.pos_iff_ne_zero.mp hpos]
  · simp [validate_pdf_before_upload, decide_eq_true_eq]

/-! ## Path choice in `services/hybrid_document_processor.py` -/

/-- Text-ratio threshold for the path split, `HybridDocumentProcessor.__init__`
line 30 (`self.TEXT_RATIO_THRESHOLD = 0.1`). -/
def TEXT_RATIO_THRESHOLD : ℚ := 1/10

/-- OCR-confidence threshold, `HybridDocumentProcessor.__init__` line 31
(`self.OCR_CONFIDENCE_THRESHOLD = 0.6`).  The constant is assigned here and
never read anywhere else in the repository. -/
def OCR_CONFIDENCE_THRESHOLD : ℚ := 3/5

inductive ProcPath
  | fast
  | ocr
  deriving DecidableEq

/-- Path selection of `process_document`
(`hybrid_document_processor.py` lines 95-107):
`text_ratio >= TEXT_RATIO_THRESHOLD` takes `_fast_path`, else `_ocr_path`. -/
def choosePath (validation : PdfValidation) : ProcPath :=
  if TEXT_RATIO_THRESHOLD ≤ validation.text_ratio then .fast else .ocr

/-- Twenty pages of which exactly three carry native text: `text_ratio = 3/20`. -/
def pagesThreeOfTwenty : List String :=
  List.replicate 3 "text" ++ List.replicate 17 ""

/-- Counterexample to C4: at `text_ratio = 0.15` the detector flags the PDF as
a scan (`0.15 < 0.2`), yet `process_document` still chooses the fast path,
because the deciding constant is `TEXT_RATIO_THRESHOLD = 0.1`, not the 0.2
`is_scan` threshold. -/
theorem fast_path_despite_scan_flag :
    choosePath (validate_pdf_before_upload pagesThreeOfTwenty) = ProcPath.fast ∧
      (validate_pdf_before_upload pagesThreeOfTwenty).is_scan = true ∧
      (validate_pdf_before_upload pagesThreeOfTwenty).text_ratio = 3/20 := by
  have hcount : pagesThreeOfTwenty.countP (fun p => !decide (pyStrip p = "")) = 3 := by
    decide
  have hlen : pagesThreeOfTwenty.length = 20 := by decide
  have hratio : (validate_pdf_before_upload pagesThreeOfTwenty).text_ratio = 3/20 := by
    simp [validate_pdf_before_upload, countPage_foldl, hcount, hlen]
  have hscan : (validate_pdf_before_upload pagesThreeOfTwenty).is_scan = true := by
    simp only [validate_pdf_before_upload, countPage_foldl, hcount, hlen]
    rw [if_pos (by norm_num), decide_eq_true_eq]
    norm_num [hcount]
  refine ⟨?_, hscan, hratio⟩
  unfold choosePath
  rw [hratio, if_pos (by norm_num [TEXT_RATIO_THRESHOLD])]

/-- C4 as amended: the fast path is chosen exactly when `text_ratio` is at or
above `TEXT_RATIO_THRESHOLD = 0.1`, a strictly lower bar than the 0.2
`is_scan` threshold; otherwise the OCR path is taken. -/
theorem fast_path_iff_threshold (v : PdfValidation) :
    (choosePath v = ProcPath.fast ↔ TEXT_RATIO_THRESHOLD ≤ v.text_ratio) ∧
      ((choosePath v = ProcPath.ocr) ↔ v.text_ratio < TEXT_RATIO_THRESHOLD) ∧
      TEXT_RATIO_THRESHOLD < 1/5 := by
  refine ⟨?_, ?_, by norm_num [TEXT_RATIO_THRESHOLD]⟩ <;>
    · unfold choosePath
      split <;> rename_i h <;> simp_all

/-! ## OCR-path outcome: `HybridDocumentProcessor._ocr_path` -/

/-- One `fitz` `get_toc()` entry: the library returns `[level, title, page]`
in this order. -/
structure RawTocEntry where
  level : Int
  title : String
  page : Int
  deriving DecidableEq

structure OcrPathOutcome where
  status : String
  ocr_confidence : Option ℚ
  deriving DecidableEq

/-- Final document status written by `HybridDocumentProcessor._ocr_path`
(lines 251-508) as a function of the PDF's outline entries, whether the
recognition run reported success, and its `avg_confidence`.  With at least one
bookmark the OCR stage is skipped and the document completes with confidence
1.0 (lines 295-307 and 476-481); a failed recognition run raises and the
`except` branch records `"failed"` (lines 363-364, 502-507); otherwise the
function proceeds straight to completion, recording `avg_confidence` verbatim
— the function never compares it against `OCR_CONFIDENCE_THRESHOLD`.  Chapter
extraction (lines 427-467) runs inside its own try/except and cannot change
the status, so it is not a parameter. -/
def ocrPathFinal (toc : List RawTocEntry) (recogSuccess : Bool)
    (avg_confidence : ℚ) : OcrPathOutcome :=
  match toc with
  | _ :: _ => ⟨"completed", some 1⟩
  | [] =>
    if recogSuccess then ⟨"completed", some avg_confidence⟩
    else ⟨"failed", none⟩

/-- C3 is violated: a recognition run with `avg_confidence = 0.45`, below
`OCR_CONFIDENCE_THRESHOLD = 0.6`, is still recorded as `"completed"` with that
confidence, never as `"failed"`. -/
theorem low_confidence_completes_anyway :
    (ocrPathFinal [] true (9/20)).status = "completed" ∧
      (ocrPathFinal [] true (9/20)).ocr_confidence = some (9/20) ∧
      (9 : ℚ)/20 < OCR_CONFIDENCE_THRESHOLD ∧
      (ocrPathFinal [] true (9/20)).status ≠ "failed" := by
  refine ⟨rfl, by norm_num [ocrPathFinal], by norm_num [OCR_CONFIDENCE_THRESHOLD], by decide⟩

/-! ## RecognitionEngine: `core/ocr_engine.py` -/

structure OcrLine where
  text : String
  confidence : ℚ
  deriving DecidableEq

/-- Input to `process_pdf_page` for one page: `none` models a raised rendering
or recognition exception, `some lines` models the recognition capability's
reply, flattened to the recognized lines with their confidences
(`ocr_engine.py` lines 107-122). -/
structure PageOcr where
  page_num : Nat
  lines : Option (List OcrLine)
  deriving DecidableEq

structure PageResult where
  page_num : Nat
  text : String
  confidence : ℚ
  success : Bool
  deriving DecidableEq

/-- The mean used at `ocr_engine.py` lines 124-128 and 231-235:
`sum/len` for a non-empty list, else 0. -/
def ratMean (l : List ℚ) : ℚ :=
  match l with
  | [] => 0
  | _ :: _ => l.sum / l.length

/-- `OCREngine.process_pdf_page` (lines 56-155): on success the page text
joins the recognized lines and the page confidence is the mean of the line
confidences (0 if nothing was recognized, lines 124-128); an exception yields
an empty, unsuccessful result with confidence 0 (lines 147-155). -/
def process_pdf_page (p : PageOcr) : PageResult :=
  match p.lines with
  | none => ⟨p.page_num, "", 0, false⟩
  | some ls =>
      ⟨p.page_num, String.intercalate "\n" (ls.map (·.text)),
        ratMean (ls.map (·.confidence)), true⟩

/-- The page loop of `OCREngine.process_pdf` (lines 204-229), returning
`(results, confidence_scores, errors)` in iteration order: a successful page
is appended to `results`, and its confidence joins `confidence_scores` only
when it is strictly positive (`if result['confidence'] > 0`, lines 226-227);
a failed page only records an error entry (the Python error text is abstracted
to the page number). -/
def processLoop : List PageOcr → List PageResult × List ℚ × List String
  | [] => ([], [], [])
  | p :: ps =>
    let r := process_pdf_page p
    let rest := processLoop ps
    if r.success then
      (r :: rest.1,
        (if 0 < r.confidence then r.confidence :: rest.2.1 else rest.2.1),
        rest.2.2)
    else
      (rest.1, rest.2.1, toString r.page_num :: rest.2.2)

structure PdfOcrResult where
  success : Bool
  processed_pages : Nat
  pages : List PageResult
  full_text : String
  avg_confidence : ℚ
  errors : List String
  deriving DecidableEq

/-- `OCREngine.process_pdf` (lines 157-268) on a readable PDF: run the page
loop and aggregate; `avg_confidence` is the mean of the collected
`confidence_scores` (lines 231-235). -/
def process_pdf (ps : List PageOcr) : PdfOcrResult :=
  let t := processLoop ps
  { success := true
    processed_pages := t.1.length
    pages := t.1
    full_text := String.intercalate "\n\n" (t.1.map (·.text))
    avg_confidence := ratMean t.2.1
    errors := t.2.2 }

/-- The claim's document-level average, written from the spec sentence for
comparison with `process_pdf`: the arithmetic mean of the per-page
confidences over all pages that succeeded, 0 when no page succeeded. -/
def specAvgConfidence (ps : List PageOcr) : ℚ :=
  ratMean (((ps.map process_pdf_page).filter (·.success)).map (·.confidence))

/-- Closed form of the page loop: results are the successful pages in order,
and the collected confidence scores are the confidences of the successful
pages that are strictly positive. -/
theorem processLoop_spec (ps : List PageOcr) :
    (processLoop ps).1 = (ps.map process_pdf_page).filter (·.success) ∧
      (processLoop ps).2.1 =
        ((((ps.map process_pdf_page).filter (·.success)).filter
          (fun r => decide (0 < r.confidence))).map (·.confidence)) := by
  induction ps with
  | nil => exact ⟨rfl, rfl⟩
  | cons p ps ih =>
    simp only [processLoop, List.map_cons, List.filter_cons]
    by_cases hs : (process_pdf_page p).success = true <;>
      by_cases hc : 0 < (process_pdf_page p).confidence <;>
        simp [hs, hc, ih.1, ih.2, decide_eq_true_eq]

/-- C6 as amended: a page's confidence is the mean of its recognized lines'
confidences (0 if no lines were recognized), but the document's
`avg_confidence` is the mean of the confidences of the succeeded pages whose
confidence is strictly positive (0 when there is no such page): succeeded
pages with confidence 0 are excluded from the average, not averaged in. -/
theorem avg_confidence_formula (ps : List PageOcr) (pn : Nat) (ls : List OcrLine) :
    (process_pdf_page ⟨pn, some ls⟩).confidence = ratMean (ls.map (·.confidence)) ∧
      (process_pdf ps).avg_confidence =
        ratMean ((((ps.map process_pdf_page).filter (·.success)).filter
          (fun r => decide (0 < r.confidence))).map (·.confidence)) := by
  refine ⟨rfl, ?_⟩
  simp only [process_pdf]
  rw [(processLoop_spec ps).2]

/-- Two pages that both succeed, one with a single recognized line of
confidence 0.8, one with no recognized lines (confidence 0). -/
def cexConfPages : List PageOcr :=
  [⟨1, some [⟨"line", 4/5⟩]⟩, ⟨2, some []⟩]

/-- Counterexample to C6: on `cexConfPages` both pages succeed, so the mean
over succeeded pages claimed by the spec is 0.4, but `process_pdf` drops the
zero-confidence page from the average and reports 0.8. -/
theorem avg_confidence_skips_zero_pages :
    (process_pdf cexConfPages).avg_confidence = 4/5 ∧
      specAvgConfidence cexConfPages = 2/5 ∧
      (process_pdf cexConfPages).pages.map (·.success) = [true, true] ∧
      (4 : ℚ)/5 ≠ 2/5 := by
  have h1 : process_pdf_page ⟨1, some [⟨"line", 4/5⟩]⟩ =
      ⟨1, String.intercalate "\n" ["line"], 4/5, true⟩ := by
    simp [process_pdf_page, ratMean]
  have h2 : process_pdf_page ⟨2, some []⟩ =
      ⟨2, String.intercalate "\n" [], 0, true⟩ := by
    simp [process_pdf_page, ratMean]
  have hpos : (0 : ℚ) < 4/5 := by norm_num
  refine ⟨?_, ?_, ?_, by norm_num⟩
  · rw [(avg_confidence_formula cexConfPages 1 []).2]
    simp only [cexConfPages, List.map_cons, List.map_nil, h1, h2, List.filter_cons]
    simp [hpos, ratMean]
  · simp only [specAvgConfidence, cexConfPages, List.map_cons, List.map_nil, h1, h2,
      List.filter_cons]
    simp [ratMean]
    norm_num
  · simp only [process_pdf]
    rw [(processLoop_spec cexConfPages).1]
    simp [cexConfPages, h1, h2]

/-! ## Bookmark tier of `TextbookParser`: `core/textbook_parser.py` -/

/-- Dynamically typed PyMuPDF values as the bookmark loop handles them. -/
inductive PyVal
  | int (n : Int)
  | str (s : String)
  deriving DecidableEq

/-- Subscripting a `get_toc()` entry `[level, title, page]`. -/
def RawTocEntry.item (e : RawTocEntry) : Nat → PyVal
  | 0 => .int e.level
  | 1 => .str e.title
  | _ => .int e.page

/-- Python binary subtraction: defined on two ints, a TypeError otherwise. -/
def pySub : PyVal → PyVal → Except String PyVal
  | .int a, .int b => .ok (.int (a - b))
  | _, _ => .error "TypeError"

/-- Python string repetition `s * v`: needs an int; non-positive counts give
the empty string. -/
def pyRepeat (s : String) : PyVal → Except String String
  | .int n => .ok (String.join (List.replicate n.toNat s))
  | .str _ => .error "TypeError"

/-- Rendering of a value inside an f-string. -/
def pyFormat : PyVal → String
  | .int n => toString n
  | .str s => s

/-- One iteration of the bookmark loop body (`textbook_parser.py` lines
132-138), exactly as written there:
`level, title, page_num = item[1], item[0], item[2]` swaps level and title,
so the indent computation `"  " * (level - 1)` subtracts 1 from the title
STRING. -/
def buildTocLine (e : RawTocEntry) : Except String String := do
  let level := e.item 1
  let title := e.item 0
  let page_num := e.item 2
  let sub ← pySub level (.int 1)
  let indent ← pyRepeat "  " sub
  let bullets ← pyRepeat "•" level
  return indent ++ bullets ++ " " ++ pyFormat title ++ " (第" ++ pyFormat page_num ++ "页)"

/-- The `toc_text_parts` loop (lines 129-140), collecting one line per entry
in order; the first exception aborts the whole body. -/
def buildTocLines : List RawTocEntry → Except String (List String)
  | [] => .ok []
  | e :: rest => do
    let line ← buildTocLine e
    let more ← buildTocLines rest
    return line :: more

/-- `toc_text = "\n".join(toc_text_parts)` (line 140). -/
def buildTocText (toc : List RawTocEntry) : Except String String := do
  let lines ← buildTocLines toc
  return String.intercalate "\n" lines

structure BookmarkResult where
  success : Bool
  has_content : Bool
  toc_text : String
  deriving DecidableEq

/-- `TextbookParser._extract_bookmarks` (lines 92-163): an empty outline
reports failure (lines 103-110); otherwise the swapped-unpack loop runs, and
any exception lands in the `except` branch (lines 155-163), which also
reports failure.  The `toc` and `pages` fields of the returned dict are not
modelled (nothing reachable consumes them). -/
def extract_bookmarks (toc : List RawTocEntry) : BookmarkResult :=
  match toc with
  | [] => ⟨false, false, ""⟩
  | _ :: _ =>
    match buildTocText toc with
    | .ok t => ⟨true, true, t⟩
    | .error _ => ⟨false, false, ""⟩

structure ScanResult where
  toc_text : String
  pages : List Nat
  need_ai_guess : Bool
  deriving DecidableEq

structure ParseResult where
  toc_text : String
  source : String
  pages : List Nat
  need_ai_guess : Bool
  deriving DecidableEq

/-- `TextbookParser.parse_textbook` (lines 48-90).  The heuristic-scan result
is a parameter (it depends only on the PDF's page texts, lines 165-269).  On
the bookmark-success branch, line 73 reads the undefined name `book_result`
before returning, which raises NameError; the scan branch returns the scan
result with the hard-coded source string `"scan"` (line 87). -/
def parse_textbook (toc : List RawTocEntry) (scan : ScanResult) :
    Except String ParseResult :=
  let b := extract_bookmarks toc
  if b.success && b.has_content then .error "NameError"
  else .ok ⟨scan.toc_text, "scan", scan.pages, scan.need_ai_guess⟩

/-- A 12-entry, 2-level embedded outline. -/
def outline12 : List RawTocEntry :=
  [⟨1, "第一章 导论", 1⟩, ⟨2, "1.1 背景", 2⟩, ⟨2, "1.2 方法", 4⟩,
   ⟨1, "第二章 理论", 9⟩, ⟨2, "2.1 模型", 10⟩, ⟨2, "2.2 推导", 14⟩,
   ⟨1, "第三章 实验", 21⟩, ⟨2, "3.1 设置", 22⟩, ⟨2, "3.2 结果", 25⟩,
   ⟨1, "第四章 结论", 30⟩, ⟨2, "4.1 总结", 31⟩, ⟨2, "4.2 展望", 33⟩]

/-- C7 is violated by `TextbookParser` (code bug): for every PDF whose
embedded outline has at least one entry, the swapped unpack raises TypeError
at the first entry, `_extract_bookmarks` reports failure, and
`parse_textbook` falls through to the heuristic scan with source `"scan"` —
provenance `"bookmark"` is unreachable on this path; in particular on the
12-entry, 2-level outline.  (The parallel inline bookmark code in
`HybridDocumentProcessor._ocr_path` unpacks the entries correctly; see
`ocrPathFinal`.) -/
theorem bookmark_tier_always_fails (e : RawTocEntry) (rest : List RawTocEntry)
    (scan : ScanResult) :
    (extract_bookmarks (e :: rest)).success = false ∧
      parse_textbook (e :: rest) scan =
        .ok ⟨scan.toc_text, "scan", scan.pages, scan.need_ai_guess⟩ ∧
      (extract_bookmarks outline12).success = false ∧
      (parse_textbook outline12 ⟨"t", [5, 6], false⟩).map ParseResult.source =
        .ok "scan" := by
  exact ⟨rfl, rfl, rfl, rfl⟩

/-! ## ChapterExtractor: `services/chapter_divider_robust.py` and
`services/improved_chapter_extractor.py` -/

/-- One match of a chapter pattern, after the title-cleaning substitutions
(whitespace collapsed, trailing page number stripped, lines 107-108) and the
numbering conversion (`_chinese_to_number` / `int`, lines 111-114).
`re.finditer` yields matches in text order, so a match list is ordered by
position in the TOC text. -/
structure RegexChapterMatch where
  num : Nat
  title : String
  deriving DecidableEq

structure Chapter where
  chapter_number : Nat
  chapter_title : String
  deriving DecidableEq

/-- One iteration of the chapter-accumulation loop of
`RobustChapterDivider._extract_chapters_with_regex` (lines 101-135): skip a
cleaned title shorter than 2 characters (line 117), skip a `chapter_number`
already collected (line 121), otherwise append in match order. -/
def chapterStep (acc : List Chapter) (m : RegexChapterMatch) : List Chapter :=
  if m.title.length < 2 then acc
  else if acc.any (fun c => c.chapter_number == m.num) then acc
  else acc ++ [⟨m.num, m.title⟩]

/-- The full accumulation over one pattern's matches.  No sort is applied
before returning (lines 137-151 only attach subsections to each chapter). -/
def accumulate_chapters (ms : List RegexChapterMatch) : List Chapter :=
  ms.foldl chapterStep []

structure LlmChapter where
  chapter_number : Int
  chapter_title : String
  deriving DecidableEq

structure LlmData where
  has_toc : Bool
  chapters : List LlmChapter
  deriving DecidableEq

/-- Tail of `ImprovedChapterExtractor._llm_extract` (lines 499-514) once the
reply has parsed: reject `has_toc = false` or an empty chapter list,
otherwise return the model's chapters exactly as given — the loop at lines
509-512 only writes database rows; no de-duplication and no sorting touch the
returned list. -/
def llm_extract_post (d : LlmData) : Option (List LlmChapter) :=
  if !d.has_toc then none
  else if d.chapters.isEmpty then none
  else some d.chapters

/-- Invariant step: `chapterStep` preserves distinctness of the collected
chapter numbers. -/
theorem chapterStep_nodup (acc : List Chapter) (m : RegexChapterMatch)
    (h : (acc.map Chapter.chapter_number).Nodup) :
    ((chapterStep acc m).map Chapter.chapter_number).Nodup := by
  unfold chapterStep
  split
  · exact h
  · split
    · exact h
    · rename_i hbad
      simp only [List.map_append, List.map_cons, List.map_nil]
      rw [List.nodup_append]
      refine ⟨h, List.nodup_singleton _, ?_⟩
      intro x hx hmem
      simp only [List.mem_singleton] at hmem
      subst hmem
      simp only [List.mem_map] at hx
      obtain ⟨c, hc, hcn⟩ := hx
      exact hbad (by simp only [List.any_eq_true]; exact ⟨c, hc, by simp [hcn]⟩)

/-- Auxiliary: the whole fold preserves distinctness. -/
theorem accumulate_chapters_foldl_nodup (ms : List RegexChapterMatch)
    (acc : List Chapter) (h : (acc.map Chapter.chapter_number).Nodup) :
    ((ms.foldl chapterStep acc).map Chapter.chapter_number).Nodup := by
  induction ms generalizing acc with
  | nil => exact h
  | cons m ms ih => exact ih (chapterStep acc m) (chapterStep_nodup acc m h)

/-- C8 as amended: the regex fallback de-duplicates `chapter_number`
(duplicate matches are skipped, so the returned values are pairwise
distinct), but neither path sorts: the regex fallback emits chapters in
text-match order, and the generative path returns the model's chapter list
verbatim. -/
theorem chapter_numbers_unique_not_sorted (ms : List RegexChapterMatch)
    (c : LlmChapter) (cs : List LlmChapter) :
    ((accumulate_chapters ms).map Chapter.chapter_number).Nodup ∧
      llm_extract_post ⟨true, c :: cs⟩ = some (c :: cs) := by
  exact ⟨accumulate_chapters_foldl_nodup ms [] (by simp), rfl⟩

/-- The match list the `chinese` chapter pattern yields, in `re.finditer`
text order, on the TOC text `"第二章 方法研究\n第一章 基础理论"` (chapter 2
listed before chapter 1). -/
def cexMatches : List RegexChapterMatch :=
  [⟨2, "方法研究"⟩, ⟨1, "基础理论"⟩]

/-- Counterexample to C8: the regex fallback keeps text order, so on
`cexMatches` it returns the chapter numbers `[2, 1]`, which are not sorted
strictly ascending. -/
theorem chapter_numbers_keep_text_order :
    (accumulate_chapters cexMatches).map Chapter.chapter_number = [2, 1] ∧
      ¬ List.Chain' (· < ·)
        ((accumulate_chapters cexMatches).map Chapter.chapter_number) := by
  refine ⟨by decide, ?_⟩
  intro h
  rw [show (accumulate_chapters cexMatches).map Chapter.chapter_number = [2, 1]
    from by decide] at h
  exact absurd (List.chain'_cons.mp h).1 (by decide)

/-! ## Heuristic page selection: `TextbookParser._select_best_pages`
(`core/textbook_parser.py` lines 327-418) -/

/-- One scored page of the heuristic scan (`page_scores` entries built at
lines 193-199; `char_count` is `len(text)` and is never read by the
selection, so it is not a field here). -/
structure PageScore where
  page : Nat
  score : Nat
  text : String
  deriving DecidableEq

/-- Descending-by-score ordering used by
`sorted(page_scores, key=lambda x: x['score'], reverse=True)` (line 344). -/
def scoreGe (a b : PageScore) : Prop := b.score ≤ a.score

instance : DecidableRel scoreGe := fun a b => Nat.decLe b.score a.score

instance : IsTotal PageScore scoreGe := ⟨fun a b => Nat.le_total b.score a.score⟩

instance : IsTrans PageScore scoreGe := ⟨fun _ _ _ hab hbc => le_trans hbc hab⟩

/-- Ascending-by-page ordering used by
`selected_pages.sort(key=lambda x: x['page'])` (line 414). -/
def pageLe (a b : PageScore) : Prop := a.page ≤ b.page

instance : DecidableRel pageLe := fun a b => Nat.decLe a.page b.page

instance : IsTotal PageScore pageLe := ⟨fun a b => Nat.le_total a.page b.page⟩

instance : IsTrans PageScore pageLe := ⟨fun _ _ _ hab hbc => le_trans hab hbc⟩

/-- Python's `sorted(..., reverse=True)` is a stable descending sort;
insertion sort over the same ordering is stable, hence computes the same
list. -/
def sortByScoreDesc (ps : List PageScore) : List PageScore :=
  ps.insertionSort scoreGe

/-- Python's stable ascending sort by page number. -/
def sortByPageAsc (ps : List PageScore) : List PageScore :=
  ps.insertionSort pageLe

/-- The forward-expansion loop (lines 388-400): walk the remaining
`scoring_pages` in score order; add a page exactly when its number equals
`max(selected_page_nums) + 1` (the selected numbers form an interval whose
maximum is tracked here), stopping at the first non-consecutive candidate or
once 20 pages are selected. -/
def expandForwardGo (selected : List PageScore) (maxPage : Nat) :
    List PageScore → List PageScore
  | [] => selected
  | q :: qs =>
    if q.page = maxPage + 1 then
      if 20 ≤ (selected ++ [q]).length then selected ++ [q]
      else expandForwardGo (selected ++ [q]) q.page qs
    else selected

/-- The at-least-2-pages backfill (lines 402-411): walk `sorted_pages` in
score order, append any page whose number is not yet selected, and stop once
2 pages are present. -/
def backfillTo2 : List PageScore → List PageScore → List PageScore
  | [], sel => sel
  | p :: ps, sel =>
    if sel.any (fun c => c.page == p.page) then backfillTo2 ps sel
    else
      if 2 ≤ (sel ++ [p]).length then sel ++ [p]
      else backfillTo2 ps (sel ++ [p])

/-- Selection once `scoring_pages` is known (lines 350-418).  `start_index`
is always 0: `max_score` is `scoring_pages[0]['score']` (line 359) and the
loop at lines 361-364 stops at the first index whose score equals
`max_score`, which index 0 satisfies; consequently the backward loop over
`range(start_index - 1, -1, -1)` (lines 371-385) has an empty range and
never executes (had it run, its body would raise TypeError — line 376
subscripts the set `selected_page_nums`).  The final statement sorts the
selection by page number. -/
def selectFromScoring (sorted_pages : List PageScore) :
    List PageScore → List PageScore
  | [] => sorted_pages.take 2
  | anchor :: rest =>
    if (expandForwardGo [anchor] anchor.page rest).length < 2 then
      sortByPageAsc (backfillTo2 sorted_pages (expandForwardGo [anchor] anchor.page rest))
    else
      sortByPageAsc (expandForwardGo [anchor] anchor.page rest)

/-- `TextbookParser._select_best_pages` (lines 327-418): empty input returns
`[]` (line 340-341); otherwise sort descending by score, keep the pages with
score at or above the `min_score_threshold = 5` (lines 346-348), and select
from them. -/
def select_best_pages : List PageScore → List PageScore
  | [] => []
  | p :: ps =>
    selectFromScoring (sortByScoreDesc (p :: ps))
      ((sortByScoreDesc (p :: ps)).filter (fun q => decide (5 ≤ q.score)))

/-- The pages accumulated by the forward expansion always form one
contiguous ascending page-number run. -/
theorem expandForwardGo_range (qs : List PageScore) :
    ∀ (sel : List PageScore) (a maxPage : Nat),
      sel.map PageScore.page = List.range' a sel.length →
      maxPage + 1 = a + sel.length →
      (expandForwardGo sel maxPage qs).map PageScore.page =
        List.range' a (expandForwardGo sel maxPage qs).length := by
  induction qs with
  | nil =>
    intro sel a m h1 _
    simpa [expandForwardGo] using h1
  | cons q qs ih =>
    intro sel a m h1 h2
    simp only [expandForwardGo]
    by_cases hq : q.page = m + 1
    · rw [if_pos hq]
      have hsel2 : (sel ++ [q]).map PageScore.page =
          List.range' a (sel ++ [q]).length := by
        rw [List.map_append, h1]
        simp only [List.map_cons, List.map_nil, List.length_append, List.length_cons,
          List.length_nil]
        rw [hq, List.range'_concat]
        have : m + 1 = a + 1 * sel.length := by omega
        rw [this]
      by_cases h20 : 20 ≤ (sel ++ [q]).length
      · rw [if_pos h20]
        exact hsel2
      · rw [if_neg h20]
        refine ih (sel ++ [q]) a q.page hsel2 ?_
        simp only [List.length_append, List.length_cons, List.length_nil]
        omega
    · rw [if_neg hq]
      exact h1

/-- The forward expansion only ever appends, so it keeps every page of the
initial selection. -/
theorem expandForwardGo_mem (qs : List PageScore) :
    ∀ (sel : List PageScore) (m : Nat) (x : PageScore), x ∈ sel →
      x ∈ expandForwardGo sel m qs := by
  induction qs with
  | nil =>
    intro sel m x hx
    simpa [expandForwardGo] using hx
  | cons q qs ih =>
    intro sel m x hx
    simp only [expandForwardGo]
    by_cases hq : q.page = m + 1
    · rw [if_pos hq]
      by_cases h20 : 20 ≤ (sel ++ [q]).length
      · rw [if_pos h20]
        exact List.mem_append_left _ hx
      · rw [if_neg h20]
        exact ih _ _ x (List.mem_append_left _ hx)
    · rw [if_neg hq]
      exact hx

/-- A list whose page numbers are `range' a n` is sorted by page. -/
theorem sorted_pageLe_of_range (xs : List PageScore) (a : Nat)
    (h : xs.map PageScore.page = List.range' a xs.length) :
    List.Sorted pageLe xs := by
  have hp : List.Pairwise (· < ·) (xs.map PageScore.page) := by
    rw [h]
    exact List.pairwise_lt_range' a xs.length
  rw [List.pairwise_map] at hp
  exact hp.imp fun hab => Nat.le_of_lt hab

/-- Consecutive elements of `range' a n` (step 1) differ by exactly 1. -/
theorem chain'_consec_range' (n : Nat) :
    ∀ a : Nat, List.Chain' (fun x y => y = x + 1) (List.range' a n) := by
  induction n with
  | zero =>
    intro a
    simp
  | succ m ih =>
    intro a
    rw [List.range'_succ]
    cases m with
    | zero => simp
    | succ k =>
      rw [List.range'_succ]
      refine List.chain'_cons.mpr ⟨rfl, ?_⟩
      rw [← List.range'_succ]
      exact ih (a + 1)

/-- C9: whenever the heuristic scan produced scored pages, at least one page
reached the `MIN_SCORE = 5` threshold, and the at-least-2-pages backfill was
not triggered (the contiguous expansion alone selected 2 or more pages), the
selected pages form one contiguous ascending page-number run that starts at
the anchor page, with no gap between consecutive selected page numbers, and
the anchor is a highest-scoring page of the whole input. -/
theorem select_best_pages_contiguous (page_scores : List PageScore)
    (anchor : PageScore) (rest : List PageScore)
    (hscoring : (sortByScoreDesc page_scores).filter (fun q => decide (5 ≤ q.score))
        = anchor :: rest)
    (hlen : 2 ≤ (expandForwardGo [anchor] anchor.page rest).length) :
    (select_best_pages page_scores).map PageScore.page =
        List.range' anchor.page (select_best_pages page_scores).length ∧
      List.Chain' (fun a b => b = a + 1)
        ((select_best_pages page_scores).map PageScore.page) ∧
      (∀ q ∈ page_scores, q.score ≤ anchor.score) ∧
      anchor ∈ select_best_pages page_scores := by
  cases page_scores with
  | nil => simp [sortByScoreDesc] at hscoring
  | cons p ps =>
    have hshape := expandForwardGo_range rest [anchor] anchor.page anchor.page
      (by simp [List.range'_succ]) (by simp)
    have hsortedE : List.Sorted pageLe (expandForwardGo [anchor] anchor.page rest) :=
      sorted_pageLe_of_range _ anchor.page hshape
    have hE : sortByPageAsc (expandForwardGo [anchor] anchor.page rest) =
        expandForwardGo [anchor] anchor.page rest :=
      List.Sorted.insertionSort_eq hsortedE
    have hsel : select_best_pages (p :: ps) = expandForwardGo [anchor] anchor.page rest := by
      simp only [select_best_pages]
      rw [hscoring]
      simp only [selectFromScoring]
      rw [if_neg (Nat.not_lt.mpr hlen)]
      exact hE
    refine ⟨?_, ?_, ?_, ?_⟩
    · rw [hsel]
      exact hshape
    · rw [hsel, hshape]
      exact chain'_consec_range' _ anchor.page
    · have hsorted : List.Sorted scoreGe (sortByScoreDesc (p :: ps)) :=
        List.sorted_insertionSort scoreGe (p :: ps)
      have hfil : List.Sorted scoreGe
          ((sortByScoreDesc (p :: ps)).filter (fun q => decide (5 ≤ q.score))) :=
        List.Pairwise.filter _ hsorted
      rw [hscoring] at hfil
      have hrest : ∀ q ∈ rest, scoreGe anchor q := List.rel_of_sorted_cons hfil
      have hanchor5 : 5 ≤ anchor.score := by
        have hmem : anchor ∈
            (sortByScoreDesc (p :: ps)).filter (fun q => decide (5 ≤ q.score)) := by
          rw [hscoring]
          exact List.mem_cons_self _ _
        have := (List.mem_filter.mp hmem).2
        simpa using this
      intro q hq
      have hq' : q ∈ sortByScoreDesc (p :: ps) := by
        unfold sortByScoreDesc
        exact (List.mem_insertionSort _).mpr hq
      by_cases h5 : 5 ≤ q.score
      · have hqf : q ∈ anchor :: rest := by
          rw [← hscoring]
          exact List.mem_filter.mpr ⟨hq', by simpa using h5⟩
        rcases List.mem_cons.mp hqf with h | h
        · rw [h]
        · exact hrest q h
      · omega
    · rw [hsel]
      exact expandForwardGo_mem rest [anchor] anchor.page anchor (List.mem_singleton_self _)

/-- Three scored pages 3, 4, 5 with descending scores 10, 9, 8. -/
def scanScores3 : List PageScore :=
  [⟨3, 10, "a"⟩, ⟨4, 9, "b"⟩, ⟨5, 8, "c"⟩]

/-- Witness for C9 at a concrete input: pages 3, 4, 5 all reach the
threshold, expansion selects all three (no backfill), and the selection is
the contiguous run 3, 4, 5. -/
theorem select_best_pages_contiguous_witness :
    (sortByScoreDesc scanScores3).filter (fun q => decide (5 ≤ q.score)) =
        (⟨3, 10, "a"⟩ : PageScore) :: [⟨4, 9, "b"⟩, ⟨5, 8, "c"⟩] ∧
      2 ≤ (expandForwardGo [⟨3, 10, "a"⟩] 3 [⟨4, 9, "b"⟩, ⟨5, 8, "c"⟩]).length ∧
      (select_best_pages scanScores3).map PageScore.page =
        List.range' 3 (select_best_pages scanScores3).length := by
  have h1 : (sortByScoreDesc scanScores3).filter (fun q => decide (5 ≤ q.score)) =
      (⟨3, 10, "a"⟩ : PageScore) :: [⟨4, 9, "b"⟩, ⟨5, 8, "c"⟩] := by decide
  have h2 : 2 ≤ (expandForwardGo [⟨3, 10, "a"⟩] 3 [⟨4, 9, "b"⟩, ⟨5, 8, "c"⟩]).length := by
    decide
  exact ⟨h1, h2, (select_best_pages_contiguous scanScores3 _ _ h1 h2).1⟩

end EduGenius
